import Mathlib

/-!
Verification of the auteur.one timeline/compositing/export engine.

The definitions below are a shallow embedding of the TypeScript source:
times and durations (JS numbers, seconds) are modelled as rationals,
entity records mirror the interfaces of frontend/lib/types.ts, and each
operation is translated from the function of the same name in
frontend/app/page.tsx, frontend/lib/validation.ts or the video exporter
(frontend/lib, VideoExporter class).
-/

/-- Clip and track kinds, from the union type in types.ts. -/
inductive ClipType where
  | video | audio | picture | dialogue | text
deriving DecidableEq, Repr

/-- Overlap policy values of TrackRules.overlap_policy in types.ts. -/
inductive OverlapPolicy where
  | allow | disallow | push | trim
deriving DecidableEq, Repr

/-- Take.source values in types.ts. -/
inductive TakeSource where
  | recording | upload | tts | imported
deriving DecidableEq, Repr

/-- TrackRules from types.ts (snap and ripple_mode are optional there;
only overlap_policy is read by the engine code). -/
structure TrackRules where
  overlap_policy : OverlapPolicy
  default_gap_ms : ℚ
  snap : Option Bool := none
  ripple_mode : Option Bool := none
deriving DecidableEq, Repr

/-- Track from types.ts, restricted to the fields the engine reads. -/
structure Track where
  id : String
  name : String
  type : ClipType
  order : ℤ
  mute : Bool
  volume : Option ℚ := none
  rules : Option TrackRules := none
deriving DecidableEq, Repr

/-- Take from types.ts; the audio payload (blob or uri) is modelled by
presence flags since only its existence is branched on. -/
structure Take where
  id : String
  duration : ℚ
  source : TakeSource
  name : String := ""
  hasBlob : Bool := true
  uri : Option String := none
deriving DecidableEq, Repr

/-- The open params.transform object read by VideoExporter.renderClip. -/
structure ClipTransform where
  x : ℚ
  y : ℚ
  rotation : ℚ
  scaleX : ℚ
  scaleY : ℚ
deriving DecidableEq, Repr

/-- ClipParams from types.ts, restricted to the keys the compositor and
exporter read. videoElement and imageElement are DOM handles in the
source; here a Bool records whether they are set. -/
structure ClipParams where
  volume : Option ℚ := none
  pitch : Option ℚ := none
  speed : Option ℚ := none
  opacity : Option ℚ := none
  transform : Option ClipTransform := none
  videoElement : Bool := false
  imageElement : Bool := false
deriving DecidableEq, Repr

/-- Clip from types.ts. Optional strings that the source tests only for
truthiness (content, scriptText) are plain strings with "" for absent. -/
structure Clip where
  id : String
  trackId : String
  type : ClipType
  name : String
  start : ℚ
  duration : ℚ
  params : ClipParams
  speaker : Option String := none
  content : String := ""
  scriptText : String := ""
  takes : List Take := []
  activeTakeId : Option String := none
deriving DecidableEq, Repr

/-- Speaker from types.ts, restricted to the fields the exporter reads. -/
structure Speaker where
  id : String
  name : String
  color : Option String := none
deriving DecidableEq, Repr

/-! ## Placement engine (frontend/app/page.tsx) -/

/-- checkOverlap from page.tsx lines 142 to 156. Returns false when the
clip or its track is missing, the track has no rules, or the overlap
policy is allow; otherwise scans every other clip of the same track for
an intersecting half-open interval. -/
def checkOverlap (clips : List Clip) (tracks : List Track)
    (clipId : String) (newStart newDuration : ℚ) : Bool :=
  match clips.find? (fun c => c.id == clipId) with
  | none => false
  | some clip =>
    match tracks.find? (fun t => t.id == clip.trackId) with
    | none => false
    | some track =>
      match track.rules with
      | none => false
      | some rules =>
        if rules.overlap_policy == OverlapPolicy.allow then false
        else
          let trackClips := clips.filter
            (fun c => c.trackId == clip.trackId && !(c.id == clipId))
          let newEnd := newStart + newDuration
          trackClips.any (fun other =>
            let otherEnd := other.start + other.duration
            decide (¬(newEnd ≤ other.start ∨ newStart ≥ otherEnd)))

/-- The start-field case of updateClip in page.tsx (the special hash
branch of updateClip applies only to content and scriptText). -/
def updateClipStart (clips : List Clip) (id : String) (v : ℚ) : List Clip :=
  clips.map (fun c => if c.id == id then { c with start := v } else c)

/-- The duration-field case of updateClip in page.tsx. -/
def updateClipDuration (clips : List Clip) (id : String) (v : ℚ) : List Clip :=
  clips.map (fun c => if c.id == id then { c with duration := v } else c)

/-- The activeTakeId-field case of updateClip in page.tsx, as invoked by
the take-selection click handler in PropertiesPanel.tsx line 178. -/
def updateClipActiveTakeId (clips : List Clip) (id : String) (takeId : String) :
    List Clip :=
  clips.map (fun c => if c.id == id then { c with activeTakeId := some takeId } else c)

/-- Per-clip body of rippleEdit in page.tsx lines 159 to 168. -/
def rippleClip (trackId : String) (afterTime deltaTime : ℚ) (c : Clip) : Clip :=
  if c.trackId == trackId && decide (c.start ≥ afterTime) then
    { c with start := max 0 (c.start + deltaTime) }
  else c

/-- rippleEdit from page.tsx: a no-op unless ripple mode is enabled,
otherwise shifts every clip of the track at or after afterTime. -/
def rippleEdit (rippleMode : Bool) (clips : List Clip)
    (trackId : String) (afterTime deltaTime : ℚ) : List Clip :=
  if rippleMode then clips.map (rippleClip trackId afterTime deltaTime)
  else clips

/-! ## Take lifecycle (page.tsx lines 388 to 469, PropertiesPanel.tsx) -/

/-- Per-clip body of the setClips updater in stopRecording, page.tsx
lines 404 to 415: append the new take, activate it, and adopt its
duration. -/
def stopRecordingClip (clipId : String) (newTake : Take) (c : Clip) : Clip :=
  if c.id == clipId then
    { c with takes := c.takes ++ [newTake],
             activeTakeId := some newTake.id,
             duration := newTake.duration }
  else c

/-- stopRecording applied to the clip list (page.tsx lines 404 to 415). -/
def stopRecordingApply (clips : List Clip) (clipId : String) (newTake : Take) :
    List Clip :=
  clips.map (stopRecordingClip clipId newTake)

/-- Per-clip body of the setClips updater in uploadTake, page.tsx lines
440 to 451; identical in shape to the stopRecording updater. -/
def uploadTakeClip (clipId : String) (newTake : Take) (c : Clip) : Clip :=
  if c.id == clipId then
    { c with takes := c.takes ++ [newTake],
             activeTakeId := some newTake.id,
             duration := newTake.duration }
  else c

/-- uploadTake applied to the clip list (page.tsx lines 440 to 451). -/
def uploadTakeApply (clips : List Clip) (clipId : String) (newTake : Take) :
    List Clip :=
  clips.map (uploadTakeClip clipId newTake)

/-- Per-clip body of deleteTake, page.tsx lines 458 to 469: drop the
take; when it was active, fall back to the first remaining take or to
absent. -/
def deleteTakeClip (clipId takeId : String) (c : Clip) : Clip :=
  if c.id == clipId then
    let takes := c.takes.filter (fun t => !(t.id == takeId))
    let newActive := if c.activeTakeId == some takeId
      then takes.head?.map (fun t => t.id)
      else c.activeTakeId
    { c with takes := takes, activeTakeId := newActive }
  else c

/-- deleteTake applied to the clip list (page.tsx lines 458 to 469). -/
def deleteTake (clips : List Clip) (clipId takeId : String) : List Clip :=
  clips.map (deleteTakeClip clipId takeId)

/-- The data-model invariant that activeTakeId, when present, references
a take owned by the clip. -/
def activeTakeOwned (c : Clip) : Prop :=
  ∀ a, c.activeTakeId = some a → a ∈ c.takes.map (fun t => t.id)

/-- splitClip from page.tsx lines 360 to 375; the fresh random id of the
second clip is passed in as newId. -/
def splitClip (clips : List Clip) (selectedClipId : Option String)
    (currentTime : ℚ) (newId : String) : List Clip :=
  match selectedClipId with
  | none => clips
  | some selId =>
    match clips.find? (fun c => c.id == selId) with
    | none => clips
    | some clip =>
      if currentTime ≤ clip.start ∨ clip.start + clip.duration ≤ currentTime
      then clips
      else
        let splitPoint := currentTime - clip.start
        let newClip := { clip with id := newId, start := currentTime,
                                   duration := clip.duration - splitPoint }
        updateClipDuration clips clip.id splitPoint ++ [newClip]

/-! ## Export pipeline (VideoExporter in frontend/lib) -/

/-- Frame count of VideoExporter.exportVideo line 359:
Math.ceil(duration times fps). -/
def totalFrames (duration fps : ℚ) : ℕ := (⌈duration * fps⌉).toNat

/-- The sequence of times at which exportVideo composites frames,
lines 367 to 368: frameIndex over 0 ..< totalFrames at frameIndex / fps. -/
def exportFrameTimes (duration fps : ℚ) : List ℚ :=
  (List.range (totalFrames duration fps)).map (fun i : ℕ => (i : ℚ) / fps)

/-- Truncation toward zero, the rounding of the JS remainder operator. -/
def ratTrunc (q : ℚ) : ℤ := if 0 ≤ q then ⌊q⌋ else ⌈q⌉

/-- The JS remainder x % m (truncated division remainder). -/
def jsMod (x m : ℚ) : ℚ := x - m * ((ratTrunc (x / m) : ℤ) : ℚ)

/-- String.prototype.padStart with the pad character 0. -/
def padStartZero (s : String) (n : ℕ) : String :=
  if n ≤ s.length then s
  else String.mk (List.replicate (n - s.length) '0') ++ s

/-- formatSRTTime from the VideoExporter, lines 631 to 638. -/
def formatSRTTime (seconds : ℚ) : String :=
  let hours : ℤ := ⌊seconds / 3600⌋
  let minutes : ℤ := ⌊jsMod seconds 3600 / 60⌋
  let secs : ℤ := ⌊jsMod seconds 60⌋
  let ms : ℤ := ⌊jsMod seconds 1 * 1000⌋
  padStartZero (toString hours) 2 ++ ":" ++ padStartZero (toString minutes) 2
    ++ ":" ++ padStartZero (toString secs) 2 ++ ","
    ++ padStartZero (toString ms) 3

/-- The cue text source, clip.content or else clip.scriptText or else
the empty string (JS truthiness chain). -/
def dialogueText (c : Clip) : String :=
  if c.content ≠ "" then c.content else c.scriptText

/-- One SRT cue as assembled by the exportSubtitles loop body, lines 607
to 626: index line, timestamp line, text line with the bracketed speaker
name exactly when the speaker reference resolves, blank separator. -/
def srtCue (index : ℕ) (speakers : List Speaker) (c : Clip) : String :=
  let text := dialogueText c
  let startTime := formatSRTTime c.start
  let endTime := formatSRTTime (c.start + c.duration)
  let line := match speakers.find? (fun s => some s.id == c.speaker) with
    | some sp => "[" ++ sp.name ++ "] " ++ text
    | none => text
  toString index ++ "\n" ++ startTime ++ " --> " ++ endTime ++ "\n"
    ++ line ++ "\n\n"

/-- The exportSubtitles for-loop with its running cue index, which is
advanced only when a cue is emitted; clips with empty text are skipped. -/
def srtLoop (speakers : List Speaker) : List Clip → ℕ → String
  | [], _ => ""
  | c :: rest, index =>
    if dialogueText c = "" then srtLoop speakers rest index
    else srtCue index speakers c ++ srtLoop speakers rest (index + 1)

/-- The stable ascending sort by start used both by exportSubtitles
(line 602) and by the per-track clip ordering of exportVideo (line 381);
JS Array.sort with the comparator a.start - b.start is a stable
ascending sort, modelled by insertion sort. -/
def sortByStart (clips : List Clip) : List Clip :=
  List.insertionSort (fun a b => a.start ≤ b.start) clips

/-- VideoExporter.exportSubtitles, lines 598 to 629. -/
def exportSubtitles (clips : List Clip) (speakers : List Speaker) : String :=
  srtLoop speakers
    (sortByStart (clips.filter (fun c => c.type == ClipType.dialogue))) 1

/-! ## Frame compositing: live preview versus export -/

/-- Abstract 2D-context drawing commands. Effect renderers are shared
between the two paths through the EFFECTS registry, so an invocation is
recorded as one command carrying exactly the renderer arguments
(surface size, time, clip with its params); rotateDeg records the
degree argument of ctx.rotate(deg times pi over 180). -/
inductive DrawCmd where
  | fillRect (color : String)
  | save
  | restore
  | translate (x y : ℚ)
  | rotateDeg (degrees : ℚ)
  | scale (sx sy : ℚ)
  | setAlpha (a : ℚ)
  | drawVideoFrame (clipId : String) (w h sourceTime : ℚ)
  | drawImageFrame (clipId : String) (w h : ℚ)
  | effect (ty : ClipType) (w h time : ℚ) (c : Clip)
deriving DecidableEq, Repr

/-- JS x || d for a possibly absent number: undefined and 0 both fall
back to the default. -/
def jsOrElse (o : Option ℚ) (dflt : ℚ) : ℚ :=
  match o with
  | some v => if v = 0 then dflt else v
  | none => dflt

/-- Canvas constants of page.tsx lines 15 to 16. -/
def CANVAS_WIDTH : ℚ := 1920

/-- Canvas height constant of page.tsx line 16. -/
def CANVAS_HEIGHT : ℚ := 1080

/-- The track z-ordering of renderFrame (page.tsx line 96): a stable
sort by the order field. -/
def sortTracksByOrder (tracks : List Track) : List Track :=
  List.insertionSort (fun a b => a.order ≤ b.order) tracks

/-- Drawing part of renderFrame, page.tsx lines 91 to 108: clear to
the color 09090b, iterate tracks by ascending order, skip muted tracks,
and for every clip of the track whose interval contains the time invoke
its effect renderer with the global time. The EFFECTS registry contains
every clip type, so its presence test always passes; the audio-sync tail
of renderFrame talks to the audio manager, not to the canvas. -/
def renderFrameDraw (tracks : List Track) (clips : List Clip) (time : ℚ) :
    List DrawCmd :=
  DrawCmd.fillRect "#09090b" ::
    (sortTracksByOrder tracks).flatMap (fun track =>
      if track.mute then []
      else
        (clips.filter (fun c => c.trackId == track.id)).flatMap (fun clip =>
          if decide (time ≥ clip.start) &&
              decide (time < clip.start + clip.duration) then
            [DrawCmd.effect clip.type CANVAS_WIDTH CANVAS_HEIGHT time clip]
          else []))

/-- VideoExporter.renderClip, lines 455 to 493: save, optional transform
from params.transform, then the video-element, image-element or effect
branch, then restore. The time received here is clip-local. -/
def renderClipCmds (w h : ℚ) (c : Clip) (time : ℚ) : List DrawCmd :=
  let transformCmds : List DrawCmd :=
    match c.params.transform with
    | some t => [DrawCmd.translate (t.x * w) (t.y * h),
                 DrawCmd.rotateDeg t.rotation,
                 DrawCmd.scale t.scaleX t.scaleY]
    | none => []
  let body : List DrawCmd :=
    if c.type == ClipType.video && c.params.videoElement then
      [DrawCmd.setAlpha (jsOrElse c.params.opacity 1),
       DrawCmd.drawVideoFrame c.id w h (time * jsOrElse c.params.speed 1)]
    else if c.type == ClipType.picture && c.params.imageElement then
      [DrawCmd.setAlpha (jsOrElse c.params.opacity 1),
       DrawCmd.drawImageFrame c.id w h]
    else
      [DrawCmd.effect c.type w h time c]
  DrawCmd.save :: (transformCmds ++ body ++ [DrawCmd.restore])

/-- Per-frame compositing of VideoExporter.exportVideo, lines 370 to
387: clear to the color 000, iterate tracks in array order, skip muted
tracks, filter the in-range clips of the track, sort them by start, and
render each through renderClip at clip-local time. -/
def exportFrameDraw (tracks : List Track) (clips : List Clip)
    (time w h : ℚ) : List DrawCmd :=
  DrawCmd.fillRect "#000" ::
    tracks.flatMap (fun track =>
      if track.mute then []
      else
        (sortByStart ((clips.filter (fun c => c.trackId == track.id)).filter
            (fun c => decide (time ≥ c.start) &&
              decide (time < c.start + c.duration)))).flatMap
          (fun clip => renderClipCmds w h clip (time - clip.start)))

/-- The frame sequence composited by exportVideo: one exportFrameDraw
invocation per frame index at frameIndex / fps. -/
def exportRenderedFrames (tracks : List Track) (clips : List Clip)
    (duration fps w h : ℚ) : List (List DrawCmd) :=
  (List.range (totalFrames duration fps)).map
    (fun i : ℕ => exportFrameDraw tracks clips ((i : ℚ) / fps) w h)

/-! ## Export action control flow (page.tsx lines 471 to 535) -/

/-- A binary payload, reduced to the one field the code branches on. -/
structure Blob where
  size : ℕ
deriving DecidableEq, Repr

/-- Observable outcome of one export action: which of the three
artifacts were saved, and the single alert of the shared catch. -/
structure ExportOutcome where
  videoDownloaded : Bool
  srtDownloaded : Bool
  audioDownloaded : Bool
  errorAlert : Option String
deriving DecidableEq, Repr

/-- The exportVideo handler of page.tsx lines 471 to 535: the three
artifact productions run sequentially inside one try block; each await
may throw, modelled by Except, and the first failure jumps to the single
shared catch. The video is downloaded right after its await succeeds;
the subtitle text is saved only when non-empty, the stem only when its
blob is non-empty. -/
def exportAction (videoResult : Except String Blob)
    (srtResult : Except String String) (audioResult : Except String Blob) :
    ExportOutcome :=
  match videoResult with
  | Except.error e => ⟨false, false, false, some e⟩
  | Except.ok _ =>
    match srtResult with
    | Except.error e => ⟨true, false, false, some e⟩
    | Except.ok srt =>
      let srtSaved := !(srt == "")
      match audioResult with
      | Except.error e => ⟨true, srtSaved, false, some e⟩
      | Except.ok audioBlob => ⟨true, srtSaved, decide (0 < audioBlob.size), none⟩

/-! ## Concrete instances used by witnesses and counterexamples -/

/-- Rules of the default dialogue track created by createProject. -/
def demoRules : TrackRules :=
  { overlap_policy := OverlapPolicy.disallow, default_gap_ms := 200,
    snap := some true }

/-- The default dialogue track of createProject (page.tsx lines 184 to
202), shortened id. -/
def demoTrack : Track :=
  { id := "T", name := "Dialogue", type := ClipType.dialogue, order := 0,
    mute := false, volume := some 1, rules := some demoRules }

/-- A dialogue clip occupying the interval from 0 to 5. -/
def clipA : Clip :=
  { id := "A", trackId := "T", type := ClipType.dialogue, name := "A",
    start := 0, duration := 5, params := {} }

/-- A dialogue clip occupying the interval from 8 to 10. -/
def clipB : Clip :=
  { id := "B", trackId := "T", type := ClipType.dialogue, name := "B",
    start := 8, duration := 2, params := {} }

/-- The speaker Alice of end-to-end scenario D. -/
def speakerAlice : Speaker := { id := "alice", name := "Alice" }

/-- Scenario D clip one: start 1, duration 2, speaker Alice, text Hi. -/
def clipHi : Clip :=
  { id := "c1", trackId := "T", type := ClipType.dialogue, name := "Hi",
    start := 1, duration := 2, params := {}, speaker := some "alice",
    content := "Hi" }

/-- Scenario D clip two: start 5, duration 1.5, no speaker, text Bye. -/
def clipBye : Clip :=
  { id := "c2", trackId := "T", type := ClipType.dialogue, name := "Bye",
    start := 5, duration := 3/2, params := {}, speaker := none,
    content := "Bye" }

/-- A take of duration 3 seconds. -/
def takeOne : Take := { id := "t1", duration := 3, source := TakeSource.recording }

/-- A take of duration 4.5 seconds. -/
def takeTwo : Take := { id := "t2", duration := 9/2, source := TakeSource.recording }

/-- A dialogue clip holding both takes with the first one active. -/
def clipTakes : Clip :=
  { id := "c1", trackId := "T", type := ClipType.dialogue, name := "D",
    start := 0, duration := 3, params := {}, takes := [takeOne, takeTwo],
    activeTakeId := some "t1" }

/-! ## Drag session protocol (page.tsx lines 593 to 625) -/

/-- The two drag kinds of the dragging state in page.tsx. -/
inductive DragKind where
  | move | resize
deriving DecidableEq, Repr

/-- One pointer event of an open drag session: the session data captured
at mousedown (clip id, kind, pre-drag start and duration) plus the
pointer delta already converted to seconds. -/
structure DragEvent where
  clipId : String
  kind : DragKind
  originalStart : ℚ
  originalDuration : ℚ
  deltaSec : ℚ
deriving DecidableEq, Repr

/-- The handleMouseMove body for clip dragging in page.tsx lines 602 to
614: compute the clamped candidate, apply it through updateClip only when
checkOverlap rejects no overlap, otherwise leave the clips unchanged. -/
def applyDrag (tracks : List Track) (clips : List Clip) (ev : DragEvent) :
    List Clip :=
  match ev.kind with
  | DragKind.move =>
    let newStart := max 0 (ev.originalStart + ev.deltaSec)
    match clips.find? (fun c => c.id == ev.clipId) with
    | some clip =>
      if checkOverlap clips tracks ev.clipId newStart clip.duration then clips
      else updateClipStart clips ev.clipId newStart
    | none => clips
  | DragKind.resize =>
    let newDuration := max (1/2 : ℚ) (ev.originalDuration + ev.deltaSec)
    match clips.find? (fun c => c.id == ev.clipId) with
    | some clip =>
      if checkOverlap clips tracks ev.clipId clip.start newDuration then clips
      else updateClipDuration clips ev.clipId newDuration
    | none => clips

/-- No two clips of the given track with different ids have intersecting
half-open occupied intervals (adjacent touching is legal). -/
def clipsDisjointOn (clips : List Clip) (trackId : String) : Prop :=
  ∀ c₁ ∈ clips, ∀ c₂ ∈ clips, c₁.trackId = trackId → c₂.trackId = trackId →
    c₁.id ≠ c₂.id →
    c₁.start + c₁.duration ≤ c₂.start ∨ c₂.start + c₂.duration ≤ c₁.start

instance (clips : List Clip) (trackId : String) :
    Decidable (clipsDisjointOn clips trackId) := by
  unfold clipsDisjointOn; infer_instance

/-! ## Shared lemmas about the placement engine -/

/-- With a found clip, a found track carrying rules of a policy other
than allow, checkOverlap reduces to the scan over the other clips of the
same track. -/
lemma checkOverlap_scan {clips : List Clip} {tracks : List Track}
    {clipId : String} {ns nd : ℚ} {clip : Clip} {track : Track}
    {rules : TrackRules}
    (hc : clips.find? (fun c => c.id == clipId) = some clip)
    (ht : tracks.find? (fun t => t.id == clip.trackId) = some track)
    (hr : track.rules = some rules)
    (hp : rules.overlap_policy ≠ OverlapPolicy.allow) :
    (checkOverlap clips tracks clipId ns nd = true ↔
      ∃ other ∈ clips, other.trackId = clip.trackId ∧ other.id ≠ clipId ∧
        ¬(ns + nd ≤ other.start ∨ other.start + other.duration ≤ ns)) := by
  have hpol : (rules.overlap_policy == OverlapPolicy.allow) = false := by
    simpa using hp
  simp only [checkOverlap, hc, ht, hr, hpol, Bool.false_eq_true, if_false,
    List.any_eq_true, List.mem_filter, Bool.and_eq_true, beq_iff_eq,
    Bool.not_eq_eq_eq_not, Bool.not_true, beq_eq_false_iff_ne, ne_eq,
    decide_eq_true_eq, ge_iff_le]
  constructor
  · rintro ⟨other, ⟨hm, htr, hid⟩, hov⟩
    exact ⟨other, hm, htr, hid, hov⟩
  · rintro ⟨other, hm, htr, hid, hov⟩
    exact ⟨other, ⟨hm, htr, hid⟩, hov⟩

/-- A rejected-free checkOverlap verdict separates the candidate interval
from every other clip of the same track. -/
lemma checkOverlap_false_forall {clips : List Clip} {tracks : List Track}
    {clipId : String} {ns nd : ℚ} {clip : Clip} {track : Track}
    {rules : TrackRules}
    (hc : clips.find? (fun c => c.id == clipId) = some clip)
    (ht : tracks.find? (fun t => t.id == clip.trackId) = some track)
    (hr : track.rules = some rules)
    (hp : rules.overlap_policy ≠ OverlapPolicy.allow)
    (hfalse : checkOverlap clips tracks clipId ns nd = false) :
    ∀ other ∈ clips, other.trackId = clip.trackId → other.id ≠ clipId →
      ns + nd ≤ other.start ∨ other.start + other.duration ≤ ns := by
  intro other hm htr hid
  by_contra hcon
  have htrue : checkOverlap clips tracks clipId ns nd = true :=
    (checkOverlap_scan hc ht hr hp).mpr ⟨other, hm, htr, hid, hcon⟩
  rw [hfalse] at htrue
  exact Bool.false_ne_true htrue

/-- Mapping a guarded id-preserving update over the clips keeps the id
multiset. -/
lemma map_id_guarded (clips : List Clip) (clipId : String) (g : Clip → Clip)
    (hgid : ∀ c, (g c).id = c.id) :
    ((clips.map (fun c => if c.id == clipId then g c else c)).map
      (fun c => c.id)) = clips.map (fun c => c.id) := by
  induction clips with
  | nil => rfl
  | cons a l ih =>
    have hhead : (if a.id == clipId then g a else a).id = a.id := by
      by_cases h : a.id = clipId <;> simp [h, hgid]
    simp only [List.map_cons, hhead, ih]

/-- Replacing the uniquely identified clip by an id- and track-preserving
update whose new interval is separated from every other clip of the
watched track preserves track disjointness. -/
lemma guarded_map_disjoint {clips : List Clip} {trackId clipId : String}
    {c₀ : Clip}
    (hc : clips.find? (fun c => c.id == clipId) = some c₀)
    (hnd : (clips.map (fun c => c.id)).Nodup)
    (hinv : clipsDisjointOn clips trackId)
    (g : Clip → Clip)
    (hgid : ∀ c, (g c).id = c.id) (hgtr : ∀ c, (g c).trackId = c.trackId)
    (hsep : c₀.trackId = trackId →
      ∀ other ∈ clips, other.trackId = trackId → other.id ≠ clipId →
        (g c₀).start + (g c₀).duration ≤ other.start ∨
        other.start + other.duration ≤ (g c₀).start) :
    clipsDisjointOn (clips.map (fun c => if c.id == clipId then g c else c))
      trackId := by
  have hc₀mem : c₀ ∈ clips := List.mem_of_find?_eq_some hc
  have hc₀id : c₀.id = clipId := by
    have := List.find?_some hc
    simpa using this
  have huniq : ∀ a ∈ clips, a.id = clipId → a = c₀ := by
    intro a ha haid
    exact List.inj_on_of_nodup_map hnd ha hc₀mem (haid.trans hc₀id.symm)
  intro x hx y hy hxtr hytr hxy
  obtain ⟨a, ha, rfl⟩ := List.mem_map.mp hx
  obtain ⟨b, hb, rfl⟩ := List.mem_map.mp hy
  by_cases hA : a.id = clipId
  · have haeq : a = c₀ := huniq a ha hA
    rw [if_pos (show (a.id == clipId) = true by simpa using hA), haeq]
      at hxtr hxy ⊢
    by_cases hB : b.id = clipId
    · have hbeq : b = c₀ := huniq b hb hB
      rw [if_pos (show (b.id == clipId) = true by simpa using hB), hbeq] at hxy
      exact absurd rfl hxy
    · rw [if_neg (show ¬(b.id == clipId) = true by simpa using hB)]
        at hytr hxy ⊢
      have htrk : c₀.trackId = trackId := by rw [← hgtr c₀]; exact hxtr
      exact hsep htrk b hb hytr hB
  · rw [if_neg (show ¬(a.id == clipId) = true by simpa using hA)]
      at hxtr hxy ⊢
    by_cases hB : b.id = clipId
    · have hbeq : b = c₀ := huniq b hb hB
      rw [if_pos (show (b.id == clipId) = true by simpa using hB), hbeq]
        at hytr hxy ⊢
      have htrk : c₀.trackId = trackId := by rw [← hgtr c₀]; exact hytr
      exact (hsep htrk a ha hxtr hA).symm
    · rw [if_neg (show ¬(b.id == clipId) = true by simpa using hB)]
        at hytr hxy ⊢
      exact hinv a ha b hb hxtr hytr hxy

/-! ## Theorems -/

/-- C2: checkOverlap is false whenever the track of the clip is missing,
has no rules, or allows overlap; with rules of any other policy it is
true exactly when some other clip of the same track intersects the
half-open candidate interval, so touching endpoints never count. -/
theorem checkOverlap_spec (clips : List Clip) (tracks : List Track)
    (clipId : String) (newStart newDuration : ℚ) (clip : Clip)
    (hc : clips.find? (fun c => c.id == clipId) = some clip) :
    (tracks.find? (fun t => t.id == clip.trackId) = none →
      checkOverlap clips tracks clipId newStart newDuration = false) ∧
    (∀ track, tracks.find? (fun t => t.id == clip.trackId) = some track →
      track.rules = none →
      checkOverlap clips tracks clipId newStart newDuration = false) ∧
    (∀ track rules, tracks.find? (fun t => t.id == clip.trackId) = some track →
      track.rules = some rules → rules.overlap_policy = OverlapPolicy.allow →
      checkOverlap clips tracks clipId newStart newDuration = false) ∧
    (∀ track rules, tracks.find? (fun t => t.id == clip.trackId) = some track →
      track.rules = some rules → rules.overlap_policy ≠ OverlapPolicy.allow →
      (checkOverlap clips tracks clipId newStart newDuration = true ↔
        ∃ other ∈ clips, other.trackId = clip.trackId ∧ other.id ≠ clipId ∧
          ¬(newStart + newDuration ≤ other.start ∨
            other.start + other.duration ≤ newStart))) := by
  refine ⟨fun ht => ?_, fun track ht hr => ?_, fun track rules ht hr hp => ?_,
    fun track rules ht hr hp => ?_⟩
  · simp only [checkOverlap, hc, ht]
  · simp only [checkOverlap, hc, ht, hr]
  · simp only [checkOverlap, hc, ht, hr, hp]
    simp
  · have hpol : (rules.overlap_policy == OverlapPolicy.allow) = false := by
      simpa using hp
    simp only [checkOverlap, hc, ht, hr, hpol, Bool.false_eq_true, if_false,
      List.any_eq_true, List.mem_filter, Bool.and_eq_true, beq_iff_eq,
      Bool.not_eq_eq_eq_not, Bool.not_true, beq_eq_false_iff_ne, ne_eq,
      decide_eq_true_eq, ge_iff_le]
    constructor
    · rintro ⟨other, ⟨hm, htr, hid⟩, hov⟩
      exact ⟨other, hm, htr, hid, hov⟩
    · rintro ⟨other, hm, htr, hid, hov⟩
      exact ⟨other, ⟨hm, htr, hid⟩, hov⟩

/-- applyDrag never changes the id sequence of the clip list. -/
lemma applyDrag_map_ids (tracks : List Track) (clips : List Clip)
    (ev : DragEvent) :
    ((applyDrag tracks clips ev).map (fun c => c.id)) =
      clips.map (fun c => c.id) := by
  obtain ⟨cid, kind, os, od, ds⟩ := ev
  cases kind with
  | move =>
    simp only [applyDrag]
    cases hf : clips.find? (fun c => c.id == cid) with
    | none => rfl
    | some clip =>
      by_cases hov : checkOverlap clips tracks cid (max 0 (os + ds))
          clip.duration = true
      · simp only [hov, if_true]
      · have hov2 : checkOverlap clips tracks cid (max 0 (os + ds))
            clip.duration = false := by
          simpa using hov
        simp only [hov2, Bool.false_eq_true, if_false, updateClipStart]
        exact map_id_guarded clips cid _ (fun c => rfl)
  | resize =>
    simp only [applyDrag]
    cases hf : clips.find? (fun c => c.id == cid) with
    | none => rfl
    | some clip =>
      by_cases hov : checkOverlap clips tracks cid clip.start
          (max (1/2 : ℚ) (od + ds)) = true
      · simp only [hov, if_true]
      · have hov2 : checkOverlap clips tracks cid clip.start
            (max (1/2 : ℚ) (od + ds)) = false := by
          simpa using hov
        simp only [hov2, Bool.false_eq_true, if_false, updateClipDuration]
        exact map_id_guarded clips cid _ (fun c => rfl)

/-- One accepted or rejected drag event preserves disjointness on any
disallow-policy track. -/
lemma applyDrag_disjoint {tracks : List Track} {clips : List Clip}
    {trackId : String} {track : Track} {rules : TrackRules} (ev : DragEvent)
    (htr : tracks.find? (fun t => t.id == trackId) = some track)
    (hr : track.rules = some rules)
    (hp : rules.overlap_policy = OverlapPolicy.disallow)
    (hnd : (clips.map (fun c => c.id)).Nodup)
    (hinv : clipsDisjointOn clips trackId) :
    clipsDisjointOn (applyDrag tracks clips ev) trackId := by
  have hpne : rules.overlap_policy ≠ OverlapPolicy.allow := by
    rw [hp]; exact fun h => OverlapPolicy.noConfusion h
  obtain ⟨cid, kind, os, od, ds⟩ := ev
  cases kind with
  | move =>
    simp only [applyDrag]
    cases hf : clips.find? (fun c => c.id == cid) with
    | none => exact hinv
    | some clip =>
      by_cases hov : checkOverlap clips tracks cid (max 0 (os + ds))
          clip.duration = true
      · simp only [hov, if_true]; exact hinv
      · have hov2 : checkOverlap clips tracks cid (max 0 (os + ds))
            clip.duration = false := by
          simpa using hov
        simp only [hov2, Bool.false_eq_true, if_false, updateClipStart]
        apply guarded_map_disjoint hf hnd hinv
          (fun c => { c with start := max 0 (os + ds) })
          (fun c => rfl) (fun c => rfl)
        intro htrk other hm hotr hoid
        have ht2 : tracks.find? (fun t => t.id == clip.trackId) = some track := by
          rw [htrk]; exact htr
        have hsep := checkOverlap_false_forall hf ht2 hr hpne hov2 other hm
          (hotr.trans htrk.symm) hoid
        simpa using hsep
  | resize =>
    simp only [applyDrag]
    cases hf : clips.find? (fun c => c.id == cid) with
    | none => exact hinv
    | some clip =>
      by_cases hov : checkOverlap clips tracks cid clip.start
          (max (1/2 : ℚ) (od + ds)) = true
      · simp only [hov, if_true]; exact hinv
      · have hov2 : checkOverlap clips tracks cid clip.start
            (max (1/2 : ℚ) (od + ds)) = false := by
          simpa using hov
        simp only [hov2, Bool.false_eq_true, if_false, updateClipDuration]
        apply guarded_map_disjoint hf hnd hinv
          (fun c => { c with duration := max (1/2 : ℚ) (od + ds) })
          (fun c => rfl) (fun c => rfl)
        intro htrk other hm hotr hoid
        have ht2 : tracks.find? (fun t => t.id == clip.trackId) = some track := by
          rw [htrk]; exact htr
        have hsep := checkOverlap_false_forall hf ht2 hr hpne hov2 other hm
          (hotr.trans htrk.symm) hoid
        simpa using hsep

/-- C3: starting from a state whose clips carry distinct ids and whose
disallow-policy track holds pairwise disjoint clips, any sequence of
drag move or resize events, each applying its clamped candidate only
when checkOverlap returns false and otherwise leaving the clips
unchanged, keeps the clips of that track pairwise disjoint (touching
endpoints remain legal). -/
theorem drag_session_preserves_disjoint (tracks : List Track)
    (clips : List Clip) (events : List DragEvent) (trackId : String)
    (track : Track) (rules : TrackRules)
    (htr : tracks.find? (fun t => t.id == trackId) = some track)
    (hr : track.rules = some rules)
    (hp : rules.overlap_policy = OverlapPolicy.disallow)
    (hnd : (clips.map (fun c => c.id)).Nodup)
    (hinv : clipsDisjointOn clips trackId) :
    clipsDisjointOn (events.foldl (applyDrag tracks) clips) trackId := by
  induction events generalizing clips with
  | nil => exact hinv
  | cons ev rest ih =>
    simp only [List.foldl_cons]
    refine ih _ ?_ (applyDrag_disjoint ev htr hr hp hnd hinv)
    rw [applyDrag_map_ids]
    exact hnd

/-- Witness for C3: one accepted move of clip B from 8 to 5 next to clip
A on the disallow track keeps the track disjoint. -/
theorem drag_session_preserves_disjoint_witness :
    clipsDisjointOn
      (List.foldl (applyDrag [demoTrack]) [clipA, clipB]
        [⟨"B", DragKind.move, 8, 2, -3⟩]) "T" :=
  drag_session_preserves_disjoint [demoTrack] [clipA, clipB]
    [⟨"B", DragKind.move, 8, 2, -3⟩] "T" demoTrack demoRules rfl rfl rfl
    (by decide)
    (by
      intro c₁ h₁ c₂ h₂ ht₁ ht₂ hne
      simp only [List.mem_cons, List.not_mem_nil, or_false] at h₁ h₂
      rcases h₁ with h₁ | h₁ <;> rcases h₂ with h₂ | h₂ <;> subst h₁ <;>
        subst h₂ <;> first
        | exact absurd rfl hne
        | norm_num [clipA, clipB])

/-- Witness for C2: end-to-end scenario A, moving clip B onto the
interval from 3 to 6 over clip A on a disallow track is flagged as an
overlap. -/
theorem checkOverlap_spec_witness :
    checkOverlap [clipA, clipB] [demoTrack] "B" 3 3 = true := by
  have h := (checkOverlap_spec [clipA, clipB] [demoTrack] "B" 3 3 clipB
    rfl).2.2.2 demoTrack demoRules rfl rfl (by decide)
  refine h.mpr ⟨clipA, ?_, rfl, by decide, by norm_num [clipA]⟩
  exact List.mem_cons_self clipA [clipB]

/-- C9: ripple shift is a no-op when ripple mode is disabled; when
enabled it maps rippleClip over the clips, which clamps start to
max 0 (start + delta) exactly for the clips of the track at or after
afterTime, leaves clips of other tracks and clips before afterTime
untouched, changes no other field, and never moves a nonnegative start
below 0. -/
theorem rippleEdit_spec :
    (∀ clips trackId afterTime deltaTime,
      rippleEdit false clips trackId afterTime deltaTime = clips) ∧
    (∀ clips trackId afterTime deltaTime,
      rippleEdit true clips trackId afterTime deltaTime =
        clips.map (rippleClip trackId afterTime deltaTime)) ∧
    (∀ c trackId afterTime deltaTime, c.trackId = trackId →
      afterTime ≤ c.start →
      (rippleClip trackId afterTime deltaTime c).start =
        max 0 (c.start + deltaTime)) ∧
    (∀ c trackId afterTime deltaTime, c.trackId ≠ trackId →
      rippleClip trackId afterTime deltaTime c = c) ∧
    (∀ c trackId afterTime deltaTime, c.start < afterTime →
      rippleClip trackId afterTime deltaTime c = c) ∧
    (∀ c trackId afterTime deltaTime,
      (rippleClip trackId afterTime deltaTime c).duration = c.duration ∧
      (rippleClip trackId afterTime deltaTime c).id = c.id ∧
      (rippleClip trackId afterTime deltaTime c).trackId = c.trackId ∧
      (rippleClip trackId afterTime deltaTime c).params = c.params ∧
      (rippleClip trackId afterTime deltaTime c).takes = c.takes ∧
      (rippleClip trackId afterTime deltaTime c).activeTakeId =
        c.activeTakeId) ∧
    (∀ c trackId afterTime deltaTime, 0 ≤ c.start →
      0 ≤ (rippleClip trackId afterTime deltaTime c).start) := by
  refine ⟨fun clips trackId a d => rfl, fun clips trackId a d => rfl,
    ?_, ?_, ?_, ?_, ?_⟩
  · intro c trackId a d htr hle
    rw [rippleClip, if_pos]
    simp [htr, ge_iff_le, hle]
  · intro c trackId a d htr
    rw [rippleClip, if_neg]
    simp [htr]
  · intro c trackId a d hlt
    rw [rippleClip, if_neg]
    simp [not_le.mpr hlt]
  · intro c trackId a d
    by_cases h : (c.trackId == trackId && decide (c.start ≥ a)) = true <;>
      simp [rippleClip, h]
  · intro c trackId a d h0
    by_cases h : (c.trackId == trackId && decide (c.start ≥ a)) = true
    · simp only [rippleClip, h, if_true]
      exact le_max_left 0 _
    · simp only [rippleClip, h, Bool.false_eq_true, if_neg,
        not_false_eq_true]
      simpa using h0

/-- Witness for C9: shifting clip B (start 8) by the delta -2 after time
3 clamps through max and stays nonnegative. -/
theorem rippleEdit_spec_witness :
    (rippleClip "T" 3 (-2) clipB).start = max 0 (8 + (-2)) ∧
    0 ≤ (rippleClip "T" 3 (-2) clipB).start := by
  constructor
  · exact rippleEdit_spec.2.2.1 clipB "T" 3 (-2) rfl (by norm_num [clipB])
  · exact rippleEdit_spec.2.2.2.2.2.2 clipB "T" 3 (-2) (by norm_num [clipB])

/-- C4: the export pipeline composites exactly ceil(duration times fps)
frames, frame i being composited at time i / fps; a 2-second project at
30 fps yields exactly 60 frames at times 0/30 up to 59/30. -/
theorem exportFrameTimes_spec :
    (∀ d f : ℚ, (exportFrameTimes d f).length = (⌈d * f⌉).toNat) ∧
    (∀ tracks clips (d f w h : ℚ),
      (exportRenderedFrames tracks clips d f w h).length = (⌈d * f⌉).toNat) ∧
    (∀ d f : ℚ, ∀ i : Fin (exportFrameTimes d f).length,
      (exportFrameTimes d f).get i = ((i : ℕ) : ℚ) / f) ∧
    (∀ tracks clips (d f w h : ℚ),
      ∀ i : Fin (exportRenderedFrames tracks clips d f w h).length,
      (exportRenderedFrames tracks clips d f w h).get i =
        exportFrameDraw tracks clips (((i : ℕ) : ℚ) / f) w h) ∧
    totalFrames 2 30 = 60 ∧
    exportFrameTimes 2 30 =
      (List.range 60).map (fun i : ℕ => (i : ℚ) / 30) := by
  have h60 : totalFrames 2 30 = 60 := by
    have : (⌈(2 : ℚ) * 30⌉) = 60 := by norm_num
    simp [totalFrames, this]
  refine ⟨?_, ?_, ?_, ?_, h60, ?_⟩
  · intro d f
    rw [exportFrameTimes, List.length_map, List.length_range, totalFrames]
  · intro tracks clips d f w h
    rw [exportRenderedFrames, List.length_map, List.length_range, totalFrames]
  · intro d f i
    simp only [exportFrameTimes, List.get_eq_getElem, List.getElem_map,
      List.getElem_range]
  · intro tracks clips d f w h i
    simp only [exportRenderedFrames, List.get_eq_getElem, List.getElem_map,
      List.getElem_range]
  · rw [exportFrameTimes, h60]

/-- Counterexample to C6: activating an existing take through the
properties panel click (updateClip on activeTakeId) sets the active
take without adopting its duration: takeTwo of duration 4.5 becomes
active while the clip duration stays 3. -/
theorem selectTake_duration_counterexample :
    ((updateClipActiveTakeId [clipTakes] "c1" "t2").map
      (fun c => (c.activeTakeId, c.duration))) = [(some "t2", 3)] ∧
    takeTwo.duration ≠ 3 := by
  constructor
  · simp [updateClipActiveTakeId, clipTakes]
  · norm_num [takeTwo]

/-- Generic form of map_id_guarded: a guarded update that preserves a
projection preserves the mapped projection sequence. -/
lemma map_proj_guarded {β : Type} (clips : List Clip) (clipId : String)
    (g : Clip → Clip) (f : Clip → β) (hgf : ∀ c, f (g c) = f c) :
    ((clips.map (fun c => if c.id == clipId then g c else c)).map f) =
      clips.map f := by
  induction clips with
  | nil => rfl
  | cons a l ih =>
    have hhead : f (if a.id == clipId then g a else a) = f a := by
      by_cases h : a.id = clipId <;> simp [h, hgf]
    simp only [List.map_cons, hhead, ih]

/-- C6 amended: the operations that create and activate a new take
(stopRecording, uploadTake) set the clip duration to that take duration
at the moment of activation, but activating an existing take through
the properties panel sets activeTakeId only, leaving duration and the
takes list of every clip unchanged. -/
theorem take_activation_duration (c : Clip) (clipId : String) (tk : Take)
    (takeId : String) (hid : c.id = clipId) :
    (stopRecordingClip clipId tk c).activeTakeId = some tk.id ∧
    (stopRecordingClip clipId tk c).duration = tk.duration ∧
    (uploadTakeClip clipId tk c).activeTakeId = some tk.id ∧
    (uploadTakeClip clipId tk c).duration = tk.duration ∧
    (updateClipActiveTakeId [c] clipId takeId).map (fun x => x.activeTakeId) =
      [some takeId] ∧
    (∀ clips, (updateClipActiveTakeId clips clipId takeId).map
      (fun x => x.duration) = clips.map (fun x => x.duration)) ∧
    (∀ clips, (updateClipActiveTakeId clips clipId takeId).map
      (fun x => x.takes) = clips.map (fun x => x.takes)) := by
  have hbe : (c.id == clipId) = true := by simpa using hid
  refine ⟨?_, ?_, ?_, ?_, ?_, ?_, ?_⟩
  · simp [stopRecordingClip, hbe]
  · simp [stopRecordingClip, hbe]
  · simp [uploadTakeClip, hbe]
  · simp [uploadTakeClip, hbe]
  · simp [updateClipActiveTakeId, hbe, hid]
  · intro clips
    exact map_proj_guarded clips clipId _ _ (fun x => rfl)
  · intro clips
    exact map_proj_guarded clips clipId _ _ (fun x => rfl)

/-- Witness for the amended C6 at concrete data: finishing a recording
adopts the new take duration, while panel selection preserves duration. -/
theorem take_activation_duration_witness :
    (stopRecordingClip "c1" takeOne clipTakes).duration = takeOne.duration ∧
    (updateClipActiveTakeId [clipTakes] "c1" "t2").map
      (fun x => x.activeTakeId) = [some "t2"] := by
  have h := take_activation_duration clipTakes "c1" takeOne "t2" rfl
  exact ⟨h.2.1, h.2.2.2.2.1⟩

/-- C7: deleteTake drops the take from the takes list of the addressed
clip; when the deleted take was active, activeTakeId falls back to the
first remaining take or to absent; afterwards activeTakeId never
references a take the clip does not own (given the ownership invariant
held before); duration and every other field are untouched, and clips
with a different id are untouched entirely. -/
theorem deleteTake_spec (clips : List Clip) (clipId takeId : String)
    (c : Clip) (hmem : c ∈ clips) (hid : c.id = clipId)
    (hown : activeTakeOwned c) :
    (∃ d ∈ deleteTake clips clipId takeId,
      d.takes = c.takes.filter (fun t => !(t.id == takeId)) ∧
      (c.activeTakeId = some takeId →
        d.activeTakeId = d.takes.head?.map (fun t => t.id)) ∧
      (c.activeTakeId ≠ some takeId → d.activeTakeId = c.activeTakeId) ∧
      activeTakeOwned d ∧
      d.id = c.id ∧ d.trackId = c.trackId ∧ d.type = c.type ∧
      d.name = c.name ∧ d.start = c.start ∧ d.duration = c.duration ∧
      d.params = c.params ∧ d.speaker = c.speaker ∧
      d.content = c.content ∧ d.scriptText = c.scriptText) ∧
    (∀ c2, c2.id ≠ clipId → deleteTakeClip clipId takeId c2 = c2) := by
  have hbe : (c.id == clipId) = true := by simpa using hid
  by_cases hact : c.activeTakeId = some takeId
  · have hbeq : (c.activeTakeId == some takeId) = true := by simpa using hact
    have hd_eq : deleteTakeClip clipId takeId c =
        { c with takes := c.takes.filter (fun t => !(t.id == takeId)),
                 activeTakeId :=
                   (c.takes.filter (fun t => !(t.id == takeId))).head?.map
                     (fun t => t.id) } := by
      simp only [deleteTakeClip, hbe, if_true, hbeq]
    constructor
    · refine ⟨deleteTakeClip clipId takeId c,
        List.mem_map_of_mem (deleteTakeClip clipId takeId) hmem, ?_⟩
      rw [hd_eq]
      refine ⟨rfl, fun _ => rfl, fun hne => absurd hact hne, ?_, rfl, rfl,
        rfl, rfl, rfl, rfl, rfl, rfl, rfl, rfl⟩
      intro a ha
      simp only at ha ⊢
      cases hl : (c.takes.filter (fun t => !(t.id == takeId))) with
      | nil => rw [hl] at ha; simp at ha
      | cons t rest =>
        rw [hl] at ha
        simp only [List.head?_cons, Option.map_some] at ha
        simp only [List.map_cons, List.mem_cons]
        exact Or.inl (Option.some.inj ha).symm
    · intro c2 h2
      simp [deleteTakeClip, (show ¬(c2.id == clipId) = true by simpa using h2)]
  · have hbeq : (c.activeTakeId == some takeId) = false := by simpa using hact
    have hd_eq : deleteTakeClip clipId takeId c =
        { c with takes := c.takes.filter (fun t => !(t.id == takeId)),
                 activeTakeId := c.activeTakeId } := by
      simp only [deleteTakeClip, hbe, if_true, hbeq, Bool.false_eq_true,
        if_false]
    constructor
    · refine ⟨deleteTakeClip clipId takeId c,
        List.mem_map_of_mem (deleteTakeClip clipId takeId) hmem, ?_⟩
      rw [hd_eq]
      refine ⟨rfl, fun heq => absurd heq hact, fun _ => rfl, ?_, rfl, rfl,
        rfl, rfl, rfl, rfl, rfl, rfl, rfl, rfl⟩
      intro a ha
      simp only at ha ⊢
      have haold := hown a ha
      obtain ⟨t, htmem, htid⟩ := List.mem_map.mp haold
      have hane : a ≠ takeId := by
        intro heq
        rw [heq] at ha
        exact hact ha
      have htfil : t ∈ c.takes.filter (fun t => !(t.id == takeId)) := by
        refine List.mem_filter.mpr ⟨htmem, ?_⟩
        simp [htid, hane]
      simp only [List.mem_map]
      exact ⟨t, htfil, htid⟩
    · intro c2 h2
      simp [deleteTakeClip, (show ¬(c2.id == clipId) = true by simpa using h2)]

/-- Witness for C7: deleting the active take t1 of the demo clip
reassigns the active take and keeps ownership. -/
theorem deleteTake_spec_witness :
    ∃ d ∈ deleteTake [clipTakes] "c1" "t1",
      d.takes = clipTakes.takes.filter (fun t => !(t.id == "t1")) ∧
      activeTakeOwned d ∧ d.duration = clipTakes.duration := by
  have hown : activeTakeOwned clipTakes := by
    intro a ha
    have h1 : a = "t1" := by
      have : some "t1" = some a := ha
      exact (Option.some.inj this).symm
    subst h1
    simp [clipTakes, takeOne, takeTwo]
  obtain ⟨⟨d, hd, htk, hactEq, hactNe, hown2, hrest⟩, hother⟩ :=
    deleteTake_spec [clipTakes] "c1" "t1" clipTakes (by simp) rfl hown
  exact ⟨d, hd, htk, hown2, hrest.2.2.2.2.2.1⟩

/-- C8: a split strictly inside the selected clip truncates the original
to duration t minus start, appends a fresh-id copy starting at t with
the remaining duration (all other fields copied), the two intervals are
adjacent and non-overlapping, and the durations sum to the original. -/
theorem splitClip_spec (clips : List Clip) (selId : String) (t : ℚ)
    (newId : String) (clip : Clip)
    (hf : clips.find? (fun c => c.id == selId) = some clip)
    (h1 : clip.start < t) (h2 : t < clip.start + clip.duration) :
    splitClip clips (some selId) t newId =
      updateClipDuration clips clip.id (t - clip.start) ++
        [{ clip with id := newId, start := t,
                     duration := clip.duration - (t - clip.start) }] ∧
    { clip with duration := t - clip.start } ∈
      updateClipDuration clips clip.id (t - clip.start) ∧
    (t - clip.start) + ((clip.start + clip.duration) - t) = clip.duration ∧
    clip.start + (t - clip.start) = t ∧
    clip.duration - (t - clip.start) = (clip.start + clip.duration) - t := by
  have hmem : clip ∈ clips := List.mem_of_find?_eq_some hf
  have hguard : ¬(t ≤ clip.start ∨ clip.start + clip.duration ≤ t) := by
    push_neg
    exact ⟨h1, h2⟩
  refine ⟨?_, ?_, by ring, by ring, by ring⟩
  · simp only [splitClip, hf]
    rw [if_neg hguard]
  · have himg : { clip with duration := t - clip.start } =
        (fun c => if c.id == clip.id then { c with duration := t - clip.start }
          else c) clip := by
      simp
    rw [updateClipDuration, himg]
    exact List.mem_map_of_mem _ hmem

/-- Witness for C8: splitting clip A (interval 0 to 5) at time 2. -/
theorem splitClip_spec_witness :
    ({ clipA with duration := 2 - clipA.start } ∈
      updateClipDuration [clipA] clipA.id (2 - clipA.start)) ∧
    (2 - clipA.start) + ((clipA.start + clipA.duration) - 2) =
      clipA.duration := by
  have h := splitClip_spec [clipA] "A" 2 "A2" clipA rfl
    (by norm_num [clipA]) (by norm_num [clipA])
  exact ⟨h.2.1, h.2.2.1⟩

/-- Counterexample to C10: with a failing video encode but succeeding
subtitle and stem generation, neither the subtitle nor the stem artifact
is produced (the single try block aborts), while the identical subtitle
input is saved when the video succeeds; reporting is the one shared
alert. -/
theorem exportAction_counterexample :
    (exportAction (Except.error "encode failed") (Except.ok "1")
      (Except.ok ⟨5⟩)).srtDownloaded = false ∧
    (exportAction (Except.error "encode failed") (Except.ok "1")
      (Except.ok ⟨5⟩)).audioDownloaded = false ∧
    (exportAction (Except.ok ⟨1⟩) (Except.ok "1")
      (Except.ok ⟨5⟩)).srtDownloaded = true ∧
    (exportAction (Except.ok ⟨1⟩) (Except.ok "1")
      (Except.ok ⟨5⟩)).audioDownloaded = true := by
  refine ⟨rfl, rfl, by decide, by decide⟩

/-- C10 amended: the three artifacts are produced sequentially inside a
single try block with one shared error alert: a video failure aborts
subtitle and stem production; a subtitle failure keeps the already
downloaded video but aborts the stem; a stem failure keeps video and
subtitles; only a fully successful run reports no alert, saving the
subtitle text exactly when non-empty and the stem exactly when its blob
is non-empty. -/
theorem exportAction_spec :
    (∀ e sres ares,
      (exportAction (Except.error e) sres ares).videoDownloaded = false ∧
      (exportAction (Except.error e) sres ares).srtDownloaded = false ∧
      (exportAction (Except.error e) sres ares).audioDownloaded = false ∧
      (exportAction (Except.error e) sres ares).errorAlert = some e) ∧
    (∀ v e ares,
      (exportAction (Except.ok v) (Except.error e) ares).videoDownloaded =
        true ∧
      (exportAction (Except.ok v) (Except.error e) ares).srtDownloaded =
        false ∧
      (exportAction (Except.ok v) (Except.error e) ares).audioDownloaded =
        false ∧
      (exportAction (Except.ok v) (Except.error e) ares).errorAlert =
        some e) ∧
    (∀ v srt e,
      (exportAction (Except.ok v) (Except.ok srt)
        (Except.error e)).videoDownloaded = true ∧
      (exportAction (Except.ok v) (Except.ok srt)
        (Except.error e)).audioDownloaded = false ∧
      (exportAction (Except.ok v) (Except.ok srt)
        (Except.error e)).errorAlert = some e) ∧
    (∀ v srt ab,
      (exportAction (Except.ok v) (Except.ok srt)
        (Except.ok ab)).videoDownloaded = true ∧
      (exportAction (Except.ok v) (Except.ok srt)
        (Except.ok ab)).errorAlert = none ∧
      ((exportAction (Except.ok v) (Except.ok srt)
        (Except.ok ab)).srtDownloaded = true ↔ srt ≠ "") ∧
      ((exportAction (Except.ok v) (Except.ok srt)
        (Except.ok ab)).audioDownloaded = true ↔ 0 < ab.size)) := by
  refine ⟨fun e sres ares => ⟨rfl, rfl, rfl, rfl⟩,
    fun v e ares => ⟨rfl, rfl, rfl, rfl⟩,
    fun v srt e => ⟨rfl, rfl, rfl⟩,
    fun v srt ab => ⟨rfl, rfl, ?_, ?_⟩⟩
  · simp [exportAction]
  · simp [exportAction]

/-- Counterexample to C1: already on an empty project at time 0 the
preview frame and the export frame differ, starting with the background
fill (color 09090b versus color 000). -/
theorem preview_export_pixel_identical_counterexample :
    renderFrameDraw [] [] 0 ≠ exportFrameDraw [] [] 0 1920 1080 := by
  intro hcontra
  have hh := congrArg List.head? hcontra
  simp only [renderFrameDraw, exportFrameDraw, List.head?_cons,
    Option.some.injEq, DrawCmd.fillRect.injEq] at hh
  exact absurd hh (by decide)

/-- C1 amended: each of the two compositing functions is deterministic
(identical inputs draw identical command streams), but the preview and
export frames are never pixel-identical: the preview clears to the
color 09090b, passes global time to the effect renderers and sorts
tracks by their order field, while the export clears to the color 000,
wraps every clip in a save, transform, restore block and passes
clip-local time; the streams differ at every state and time, already in
the background fill. -/
theorem preview_export_deterministic_but_differ :
    (∀ tracks clips (t : ℚ) tracks2 clips2 (t2 : ℚ),
      tracks = tracks2 → clips = clips2 → t = t2 →
      renderFrameDraw tracks clips t = renderFrameDraw tracks2 clips2 t2) ∧
    (∀ tracks clips (t w h : ℚ) tracks2 clips2 (t2 w2 h2 : ℚ),
      tracks = tracks2 → clips = clips2 → t = t2 → w = w2 → h = h2 →
      exportFrameDraw tracks clips t w h =
        exportFrameDraw tracks2 clips2 t2 w2 h2) ∧
    (∀ tracks clips (t w h : ℚ),
      renderFrameDraw tracks clips t ≠ exportFrameDraw tracks clips t w h) := by
  refine ⟨?_, ?_, ?_⟩
  · rintro tracks clips t _ _ _ rfl rfl rfl
    rfl
  · rintro tracks clips t w h _ _ _ _ _ rfl rfl rfl rfl rfl
    rfl
  · intro tracks clips t w h hcontra
    have hh := congrArg List.head? hcontra
    simp only [renderFrameDraw, exportFrameDraw, List.head?_cons,
      Option.some.injEq, DrawCmd.fillRect.injEq] at hh
    exact absurd hh (by decide)

/-- Witness for the amended C1: determinism and divergence at a concrete
state and time. -/
theorem preview_export_deterministic_but_differ_witness :
    renderFrameDraw [demoTrack] [clipA] 1 =
      renderFrameDraw [demoTrack] [clipA] 1 ∧
    renderFrameDraw [demoTrack] [clipA] 1 ≠
      exportFrameDraw [demoTrack] [clipA] 1 1920 1080 :=
  ⟨preview_export_deterministic_but_differ.1 [demoTrack] [clipA] 1
      [demoTrack] [clipA] 1 rfl rfl rfl,
    preview_export_deterministic_but_differ.2.2 [demoTrack] [clipA] 1
      1920 1080⟩

/-- The subtitle loop equals the enumerated fold over the clips with
non-empty text: one cue per such clip, indices advancing only on
emission. -/
lemma srtLoop_eq_enumFrom (speakers : List Speaker) (l : List Clip) (i : ℕ) :
    srtLoop speakers l i =
      ((l.filter (fun c => !(dialogueText c == ""))).enumFrom i).foldr
        (fun p acc => srtCue p.1 speakers p.2 ++ acc) "" := by
  induction l generalizing i with
  | nil => rfl
  | cons c rest ih =>
    by_cases h : dialogueText c = ""
    · simp [srtLoop, h, List.filter_cons, ih]
    · simp [srtLoop, h, List.filter_cons, List.enumFrom, ih]

/-- C5: subtitle export sorts the dialogue clips by start and emits
exactly one cue per clip with non-empty text (skipping empty ones) with
a running index; every cue carries the formatted timestamps from start
to start plus duration, and the bracketed speaker name exactly when the
speaker reference resolves; scenario D yields the two expected cues. -/
theorem exportSubtitles_spec :
    (∀ clips speakers,
      exportSubtitles clips speakers =
        (((sortByStart (clips.filter
            (fun c => c.type == ClipType.dialogue))).filter
              (fun c => !(dialogueText c == ""))).enumFrom 1).foldr
          (fun p acc => srtCue p.1 speakers p.2 ++ acc) "") ∧
    (∀ idx speakers c sp,
      speakers.find? (fun s => some s.id == c.speaker) = some sp →
      srtCue idx speakers c =
        toString idx ++ "\n" ++ formatSRTTime c.start ++ " --> " ++
          formatSRTTime (c.start + c.duration) ++ "\n" ++
          ("[" ++ sp.name ++ "] " ++ dialogueText c) ++ "\n\n") ∧
    (∀ idx speakers c,
      speakers.find? (fun s => some s.id == c.speaker) = none →
      srtCue idx speakers c =
        toString idx ++ "\n" ++ formatSRTTime c.start ++ " --> " ++
          formatSRTTime (c.start + c.duration) ++ "\n" ++
          dialogueText c ++ "\n\n") ∧
    exportSubtitles [clipBye, clipHi] [speakerAlice] =
      "1\n00:00:01,000 --> 00:00:03,000\n[Alice] Hi\n\n2\n00:00:05,000 --> 00:00:06,500\nBye\n\n" := by
  have hfmt1 : formatSRTTime 1 = "00:00:01,000" := by
    unfold formatSRTTime jsMod ratTrunc
    norm_num
    rfl
  have hfmt3 : formatSRTTime ((1 : ℚ) + 2) = "00:00:03,000" := by
    unfold formatSRTTime jsMod ratTrunc
    norm_num
    rfl
  have hfmt5 : formatSRTTime 5 = "00:00:05,000" := by
    unfold formatSRTTime jsMod ratTrunc
    norm_num
    rfl
  have hfmt65 : formatSRTTime ((5 : ℚ) + 3/2) = "00:00:06,500" := by
    unfold formatSRTTime jsMod ratTrunc
    norm_num
    rfl
  refine ⟨?_, ?_, ?_, ?_⟩
  · intro clips speakers
    unfold exportSubtitles
    exact srtLoop_eq_enumFrom speakers _ 1
  · intro idx speakers c sp hfind
    simp only [srtCue, hfind]
  · intro idx speakers c hfind
    simp only [srtCue, hfind]
  · have hfil : [clipBye, clipHi].filter
        (fun c => c.type == ClipType.dialogue) = [clipBye, clipHi] := rfl
    have hsort : sortByStart [clipBye, clipHi] = [clipHi, clipBye] := by
      unfold sortByStart
      simp only [List.insertionSort, List.orderedInsert]
      rw [if_neg (by norm_num [clipBye, clipHi])]
    have hfindHi : [speakerAlice].find?
        (fun s => some s.id == clipHi.speaker) = some speakerAlice := rfl
    have hfindBye : [speakerAlice].find?
        (fun s => some s.id == clipBye.speaker) = none := rfl
    have hcue1 : srtCue 1 [speakerAlice] clipHi =
        "1\n00:00:01,000 --> 00:00:03,000\n[Alice] Hi\n\n" := by
      simp only [srtCue, hfindHi]
      rw [show clipHi.duration = (2 : ℚ) from rfl,
        show clipHi.start = (1 : ℚ) from rfl, hfmt1, hfmt3]
      rfl
    have hcue2 : srtCue 2 [speakerAlice] clipBye =
        "2\n00:00:05,000 --> 00:00:06,500\nBye\n\n" := by
      simp only [srtCue, hfindBye]
      rw [show clipBye.duration = (3/2 : ℚ) from rfl,
        show clipBye.start = (5 : ℚ) from rfl, hfmt5, hfmt65]
      rfl
    have htextHi : dialogueText clipHi = "Hi" := rfl
    have htextBye : dialogueText clipBye = "Bye" := rfl
    unfold exportSubtitles
    rw [hfil, hsort]
    simp only [srtLoop, htextHi, htextBye]
    rw [if_neg (by decide : ¬("Hi" = "")), if_neg (by decide : ¬("Bye" = ""))]
    rw [hcue1, hcue2]
    rfl

/-- Witness for C5: the resolved-speaker cue shape at the scenario D
clip. -/
theorem exportSubtitles_spec_witness :
    srtCue 1 [speakerAlice] clipHi =
      toString 1 ++ "\n" ++ formatSRTTime clipHi.start ++ " --> " ++
        formatSRTTime (clipHi.start + clipHi.duration) ++ "\n" ++
        ("[" ++ speakerAlice.name ++ "] " ++ dialogueText clipHi) ++ "\n\n" :=
  exportSubtitles_spec.2.1 1 [speakerAlice] clipHi speakerAlice rfl
